import Mathlib

/-!
Shallow embedding of the rocket resource-simulation program
(`src/src/system.c`, `src/src/event.c`, `src/include/defs.h`, and the
manager/controller translation unit) in Lean 4, together with theorems
settling the specification claims about it.

Modelling conventions:
* C `int` fields are modelled as `Int`.  The quantities exercised by the
  simulation (resource amounts bounded by `max_capacity`, status codes,
  priorities) are far below the 32-bit overflow boundary, and every
  theorem below stays inside ranges where wrap-around cannot occur.
* Pointers to `Resource` are modelled as `Option ResourceId` with
  `ResourceId := Nat`; a `Store` maps identities to `Resource` records.
  Pointer equality in C (`produced.resource == event.resource`) becomes
  equality of `Option ResourceId`, and `NULL` becomes `none`.
* `sem_wait`/`sem_post` pairs delimit critical sections; this embedding
  is the sequential semantics of the guarded bodies.
* `usleep` and `printf` do not change program state and are dropped;
  `system_simulate_process_time` is modelled as the adjusted duration it
  computes (and then sleeps for).
* A dereference of a possibly-null resource pointer without a preceding
  guard (the event-emission branches of `system_run`) is modelled by
  returning `none` from `system_run`.
-/

/-- Subsystem status constants from `defs.h`. -/
def TERMINATE : Int := 0

def DISABLED : Int := 1

def SLOW : Int := 2

def STANDARD : Int := 3

def FAST : Int := 4

/-- Event/operation status constants from `defs.h`. -/
def STATUS_OK : Int := -1

def STATUS_EMPTY : Int := 0

def STATUS_LOW : Int := 1

def STATUS_INSUFFICIENT : Int := 2

def STATUS_CAPACITY : Int := 3

def STATUS_PRODUCED : Int := 10

/-- Event priority constants from `defs.h`. -/
def PRIORITY_HIGH : Int := 3

def PRIORITY_MED : Int := 2

def PRIORITY_LOW : Int := 1

/-- Mirrors `struct Resource` from `defs.h` (the semaphore `lock` is
represented by the critical-section discipline of the operations). -/
structure Resource where
  name : String
  amount : Int
  max_capacity : Int
  deriving DecidableEq

/-- Identity of a `Resource *` pointer. -/
abbrev ResourceId := Nat

/-- The heap of resources: maps each pointer identity to its record. -/
abbrev Store := ResourceId → Resource

/-- Writing one resource record back through its pointer. -/
def setStore (st : Store) (rid : ResourceId) (r : Resource) : Store :=
  fun k => if k = rid then r else st k

/-- Mirrors `struct ResourceAmount` from `defs.h`; `resource = none`
models a `NULL` resource pointer. -/
structure ResourceAmount where
  resource : Option ResourceId
  amount : Int
  deriving DecidableEq

/-- Mirrors `struct System` from `defs.h` (the `event_queue` back pointer
is passed separately where needed). -/
structure System where
  name : String
  consumed : ResourceAmount
  produced : ResourceAmount
  amount_stored : Int
  processing_time : Int
  status : Int
  deriving DecidableEq

/-- Mirrors `struct Event` from `defs.h`.  The `System *system` field is
only ever read for its name (by the manager's logging), so it is kept as
the system's name; `resource` keeps pointer identity. -/
structure Event where
  systemName : String
  resource : Option ResourceId
  status : Int
  priority : Int
  amount : Int
  deriving DecidableEq

/-- `system_convert` from `src/src/system.c` (lines 95-116).  Returns the
status code together with the updated system and store.  The
`system_simulate_process_time` call inside the success branch only sleeps
and is dropped here. -/
def system_convert (s : System) (st : Store) : Int × System × Store :=
  match s.consumed.resource with
  | none => (STATUS_OK, s, st)
  | some rid =>
    let r := st rid
    if s.consumed.amount ≤ r.amount then
      let st1 := setStore st rid { r with amount := r.amount - s.consumed.amount }
      let s1 :=
        match s.produced.resource with
        | some _ => { s with amount_stored := s.amount_stored + s.produced.amount }
        | none => s
      (STATUS_OK, s1, st1)
    else if r.amount = 0 then
      (STATUS_EMPTY, s, st)
    else
      (STATUS_INSUFFICIENT, s, st)

/-- `system_simulate_process_time` from `src/src/system.c` (lines
126-141), modelled as the adjusted duration the function sleeps for. -/
def system_simulate_process_time (s : System) : Int :=
  if s.status = SLOW then s.processing_time * 2
  else if s.status = FAST then s.processing_time / 2
  else s.processing_time

/-- `system_store_resources` from `src/src/system.c` (lines 154-177). -/
def system_store_resources (s : System) (st : Store) : Int × System × Store :=
  match s.produced.resource with
  | none => (STATUS_OK, s, st)
  | some rid =>
    if s.amount_stored = 0 then (STATUS_OK, s, st)
    else
      let r := st rid
      let available_space := r.max_capacity - r.amount
      if s.amount_stored ≤ available_space then
        (STATUS_OK, { s with amount_stored := 0 },
          setStore st rid { r with amount := r.amount + s.amount_stored })
      else if 0 < available_space then
        (STATUS_CAPACITY, { s with amount_stored := s.amount_stored - available_space },
          setStore st rid { r with amount := r.amount + available_space })
      else
        (STATUS_CAPACITY, s, st)

/-- First `if` block of `system_run` (`src/src/system.c` lines 66-73):
conversion attempt plus event emission on failure.  Returns `none` when
the C code would dereference a null `consumed.resource` pointer while
building the event. -/
def system_run_step1 (s : System) (st : Store) : Option (System × Store × List Event) :=
  if s.amount_stored = 0 then
    let c := system_convert s st
    if c.1 ≠ STATUS_OK then
      match c.2.1.consumed.resource with
      | none => none
      | some rid =>
        some (c.2.1, c.2.2,
          [{ systemName := c.2.1.name, resource := some rid, status := c.1,
             priority := PRIORITY_HIGH, amount := (c.2.2 rid).amount }])
    else
      some (c.2.1, c.2.2, [])
  else
    some (s, st, [])

/-- Second `if` block of `system_run` (`src/src/system.c` lines 75-82):
storage attempt plus event emission on failure.  Returns `none` when the
C code would dereference a null `produced.resource` pointer while
building the event. -/
def system_run_step2 (x : System × Store × List Event) : Option (System × Store × List Event) :=
  if 0 < x.1.amount_stored then
    let p := system_store_resources x.1 x.2.1
    if p.1 ≠ STATUS_OK then
      match p.2.1.produced.resource with
      | none => none
      | some rid =>
        some (p.2.1, p.2.2,
          x.2.2 ++ [{ systemName := p.2.1.name, resource := some rid, status := p.1,
                      priority := PRIORITY_LOW, amount := (p.2.2 rid).amount }])
    else
      some (p.2.1, p.2.2, x.2.2)
  else
    some x

/-- `system_run` from `src/src/system.c` (lines 62-83): one iteration of
the worker loop.  Returns the updated system and store together with the
events pushed onto the queue; `none` models a null-pointer dereference. -/
def system_run (s : System) (st : Store) : Option (System × Store × List Event) :=
  match system_run_step1 s st with
  | none => none
  | some x => system_run_step2 x

/-- The scan loop of `event_queue_push` (`src/src/event.c` lines 82-87):
walk past every node whose priority is at least the new event's priority,
then insert. -/
def event_queue_scan (e : Event) : List Event → List Event
  | [] => [e]
  | x :: xs => if e.priority ≤ x.priority then x :: event_queue_scan e xs else e :: x :: xs

/-- `event_queue_push` from `src/src/event.c` (lines 71-92), on the queue
viewed head-to-tail as a list. -/
def event_queue_push (q : List Event) (e : Event) : List Event :=
  match q with
  | [] => [e]
  | h :: t => if h.priority < e.priority then e :: h :: t else h :: event_queue_scan e t

/-- `event_queue_pop` from `src/src/event.c` (lines 103-119): removes and
returns the head, or signals empty. -/
def event_queue_pop : List Event → Option (Event × List Event)
  | [] => none
  | h :: t => some (h, t)

/-- Pushing a whole list of events, in order, onto an empty queue. -/
def pushAll (l : List Event) : List Event :=
  l.foldl event_queue_push []

/-- Popping `n` times: the list of popped events in pop order, together
with the remaining queue. -/
def popN : Nat → List Event → List Event × List Event
  | 0, q => ([], q)
  | n + 1, q =>
    match event_queue_pop q with
    | none => ([], q)
    | some (e, q1) =>
      let rest := popN n q1
      (e :: rest.1, rest.2)

/-- The manager state touched by `manager_run`: the `simulation_running`
flag and the system array (`struct Manager` from `defs.h`; the resource
array and the queue are handled separately). -/
structure Manager where
  simulation_running : Int
  systems : List System
  deriving DecidableEq

/-- The name reached through an event's resource pointer
(`event.resource->name`); `none` when the pointer is null. -/
def ename (st : Store) (e : Event) : Option String :=
  e.resource.map (fun rid => (st rid).name)

/-- One iteration of the drain loop of `manager_run` (manager translation
unit, lines 59-92): process a single popped event, carrying the local
`status` variable in the accumulator. -/
def manager_step (st : Store) (acc : Int × Manager) (e : Event) : Int × Manager :=
  let status := acc.1
  let m := acc.2
  let no_oxygen_flag := (e.status == STATUS_EMPTY) && (ename st e == some "Oxygen")
  let distance_reached_flag := (e.status == STATUS_CAPACITY) && (ename st e == some "Distance")
  let need_more_flag :=
    (e.status == STATUS_LOW) || (e.status == STATUS_EMPTY) || (e.status == STATUS_INSUFFICIENT)
  let need_less_flag := e.status == STATUS_CAPACITY
  let status1 :=
    if no_oxygen_flag then TERMINATE
    else if distance_reached_flag then TERMINATE
    else if need_more_flag then FAST
    else if need_less_flag then SLOW
    else status
  let running1 :=
    if no_oxygen_flag || distance_reached_flag then 0 else m.simulation_running
  let systems1 :=
    if no_oxygen_flag || distance_reached_flag || need_more_flag || need_less_flag then
      m.systems.map (fun s =>
        if (status1 == TERMINATE) || (s.produced.resource == e.resource) then
          { s with status := status1 }
        else s)
    else m.systems
  (status1, { simulation_running := running1, systems := systems1 })

/-- `manager_run` (manager translation unit, lines 49-93): drain the
queue completely, processing the events head-to-tail; the local `status`
variable starts at `STANDARD`. -/
def manager_run_events (st : Store) (m : Manager) (events : List Event) : Int × Manager :=
  events.foldl (manager_step st) (STANDARD, m)

/-- One consume (`system_convert`) or produce (`system_store_resources`)
operation against a single shared resource, with the requested amount. -/
inductive ResOp where
  | consume (req : Int)
  | produce (req : Int)

/-- The requested amount of an operation. -/
def ResOp.req : ResOp → Int
  | .consume a => a
  | .produce a => a

/-- A store holding the single shared resource at every identity. -/
def singleStore (r : Resource) : Store := fun _ => r

/-- Applying one operation to a resource: run the corresponding source
function through a system wired to the resource and read the result
back.  A consume runs `system_convert` with `consumed.resource` pointing
at the resource and `consumed.amount = req`; a produce runs
`system_store_resources` with `produced.resource` pointing at the
resource and `amount_stored = req`. -/
def applyOp (r : Resource) : ResOp → Resource
  | .consume req =>
    (system_convert
      { name := "", consumed := ⟨some 0, req⟩, produced := ⟨none, 0⟩,
        amount_stored := 0, processing_time := 0, status := STANDARD }
      (singleStore r)).2.2 0
  | .produce req =>
    (system_store_resources
      { name := "", consumed := ⟨none, 0⟩, produced := ⟨some 0, 0⟩,
        amount_stored := req, processing_time := 0, status := STANDARD }
      (singleStore r)).2.2 0

/-! ### C3: consume attempt case analysis -/

/-- C3: for every resource and every positive requested amount, a consume
attempt (`system_convert` with a non-null consumed resource) returns
`STATUS_EMPTY` if the resource's amount is exactly 0, returns
`STATUS_INSUFFICIENT` if `0 < amount < requested` leaving the amount
unchanged, and if `amount ≥ requested` returns `STATUS_OK` and decrements
the amount by exactly the requested quantity. -/
theorem system_convert_consume_cases (s : System) (st : Store) (rid : ResourceId)
    (hres : s.consumed.resource = some rid) (hpos : 0 < s.consumed.amount) :
    ((st rid).amount = 0 →
      (system_convert s st).1 = STATUS_EMPTY ∧ (system_convert s st).2.2 = st) ∧
    (0 < (st rid).amount → (st rid).amount < s.consumed.amount →
      (system_convert s st).1 = STATUS_INSUFFICIENT ∧ (system_convert s st).2.2 = st) ∧
    (s.consumed.amount ≤ (st rid).amount →
      (system_convert s st).1 = STATUS_OK ∧
      ((system_convert s st).2.2 rid).amount = (st rid).amount - s.consumed.amount) := by
  refine ⟨?_, ?_, ?_⟩
  · intro h0
    have hle : ¬ s.consumed.amount ≤ (0 : Int) := by omega
    simp [system_convert, hres, hle, h0]
  · intro h1 h2
    have hle : ¬ s.consumed.amount ≤ (st rid).amount := by omega
    have h0 : ¬ (st rid).amount = 0 := by omega
    simp [system_convert, hres, hle, h0]
  · intro hle
    simp [system_convert, hres, hle, setStore]

/-- Concrete consumer used by witnesses: requests 2 units of resource 0. -/
def wSys : System :=
  { name := "W", consumed := ⟨some 0, 2⟩, produced := ⟨none, 0⟩,
    amount_stored := 0, processing_time := 0, status := STANDARD }

/-- Concrete store used by witnesses: one resource at 5 of 9. -/
def wStore : Store := singleStore { name := "R", amount := 5, max_capacity := 9 }

/-- Witness for `system_convert_consume_cases` at a concrete input. -/
theorem system_convert_consume_cases_witness :
    wSys.consumed.resource = some 0 ∧ 0 < wSys.consumed.amount ∧
    ((system_convert wSys wStore).1 = STATUS_OK ∧
      ((system_convert wSys wStore).2.2 0).amount = (wStore 0).amount - wSys.consumed.amount) :=
  ⟨rfl, by decide,
    (system_convert_consume_cases wSys wStore 0 rfl (by decide)).2.2 (by decide)⟩

/-! ### C4: produce attempt case analysis -/

/-- C4: for every resource with `available = max_capacity - amount` and a
deposit request `amount_stored > 0` against a non-null produced resource:
if the request fits it returns `STATUS_OK`, the amount grows by exactly
the request and the leftover is 0; if `0 < available < request` it
returns `STATUS_CAPACITY`, the amount becomes exactly `max_capacity` and
the leftover kept in `amount_stored` is `request - available`; if
`available = 0` it returns `STATUS_CAPACITY` with everything unchanged
and the leftover equal to the request. -/
theorem system_store_produce_cases (s : System) (st : Store) (rid : ResourceId)
    (hres : s.produced.resource = some rid) (hpos : 0 < s.amount_stored) :
    (s.amount_stored ≤ (st rid).max_capacity - (st rid).amount →
      (system_store_resources s st).1 = STATUS_OK ∧
      ((system_store_resources s st).2.2 rid).amount = (st rid).amount + s.amount_stored ∧
      (system_store_resources s st).2.1.amount_stored = 0) ∧
    (0 < (st rid).max_capacity - (st rid).amount →
      (st rid).max_capacity - (st rid).amount < s.amount_stored →
      (system_store_resources s st).1 = STATUS_CAPACITY ∧
      ((system_store_resources s st).2.2 rid).amount = (st rid).max_capacity ∧
      (system_store_resources s st).2.1.amount_stored =
        s.amount_stored - ((st rid).max_capacity - (st rid).amount)) ∧
    ((st rid).max_capacity - (st rid).amount = 0 →
      (system_store_resources s st).1 = STATUS_CAPACITY ∧
      (system_store_resources s st).2.2 = st ∧
      (system_store_resources s st).2.1.amount_stored = s.amount_stored) := by
  have h0 : ¬ s.amount_stored = 0 := by omega
  refine ⟨?_, ?_, ?_⟩
  · intro h1
    simp [system_store_resources, hres, h0, h1, setStore]
  · intro h1 h2
    have hn : ¬ s.amount_stored ≤ (st rid).max_capacity - (st rid).amount := by omega
    simp [system_store_resources, hres, h0, hn, h1, setStore]
  · intro h1
    have hn : ¬ s.amount_stored ≤ (st rid).max_capacity - (st rid).amount := by omega
    have hn2 : ¬ 0 < (st rid).max_capacity - (st rid).amount := by omega
    simp [system_store_resources, hres, h0, hn, hn2]

/-- Concrete producer used by witnesses: 4 units stored for resource 0. -/
def wProdSys : System :=
  { name := "WP", consumed := ⟨none, 0⟩, produced := ⟨some 0, 0⟩,
    amount_stored := 4, processing_time := 0, status := STANDARD }

/-- Witness for `system_store_produce_cases` at a concrete input. -/
theorem system_store_produce_cases_witness :
    wProdSys.produced.resource = some 0 ∧ 0 < wProdSys.amount_stored ∧
    ((system_store_resources wProdSys wStore).1 = STATUS_OK ∧
      ((system_store_resources wProdSys wStore).2.2 0).amount =
        (wStore 0).amount + wProdSys.amount_stored ∧
      (system_store_resources wProdSys wStore).2.1.amount_stored = 0) :=
  ⟨rfl, by decide,
    (system_store_produce_cases wProdSys wStore 0 rfl (by decide)).1 (by decide)⟩

/-! ### C1: the resource amount invariant -/

/-- One operation with a non-negative request keeps `amount` inside
`[0, max_capacity]` and never changes `max_capacity`. -/
theorem applyOp_bounds (r : Resource) (op : ResOp)
    (h0 : 0 ≤ r.amount) (h1 : r.amount ≤ r.max_capacity) (hreq : 0 ≤ op.req) :
    0 ≤ (applyOp r op).amount ∧ (applyOp r op).amount ≤ (applyOp r op).max_capacity ∧
    (applyOp r op).max_capacity = r.max_capacity := by
  cases op with
  | consume req =>
    simp only [ResOp.req] at hreq
    by_cases h : req ≤ r.amount
    · simp [applyOp, system_convert, singleStore, setStore, h]
      omega
    · simp [applyOp, system_convert, singleStore, setStore, h]
      split <;> simp [singleStore] <;> omega
  | produce req =>
    simp only [ResOp.req] at hreq
    by_cases hz : req = 0
    · simp [applyOp, system_store_resources, singleStore, setStore, hz]
      omega
    · by_cases h : req ≤ r.max_capacity - r.amount
      · simp [applyOp, system_store_resources, singleStore, setStore, hz, h]
        omega
      · by_cases h2 : 0 < r.max_capacity - r.amount
        · simp [applyOp, system_store_resources, singleStore, setStore, hz, h, h2]
          omega
        · simp [applyOp, system_store_resources, singleStore, setStore, hz, h, h2]
          omega

/-- C1: starting from `0 ≤ amount ≤ max_capacity`, any sequence of
consume (`system_convert`) and produce (`system_store_resources`)
operations with non-negative requested amounts keeps the amount inside
`[0, max_capacity]`. -/
theorem resource_invariant (ops : List ResOp) (r : Resource)
    (h0 : 0 ≤ r.amount) (h1 : r.amount ≤ r.max_capacity)
    (hops : ∀ op ∈ ops, 0 ≤ op.req) :
    0 ≤ (ops.foldl applyOp r).amount ∧
    (ops.foldl applyOp r).amount ≤ (ops.foldl applyOp r).max_capacity := by
  induction ops generalizing r with
  | nil => exact ⟨h0, h1⟩
  | cons op rest ih =>
    have hop := hops op (List.mem_cons_self op rest)
    obtain ⟨b0, b1, _⟩ := applyOp_bounds r op h0 h1 hop
    simp only [List.foldl_cons]
    exact ih (applyOp r op) b0 b1 (fun o ho => hops o (List.mem_cons_of_mem _ ho))

/-- Witness for `resource_invariant` at a concrete input. -/
theorem resource_invariant_witness :
    (0 : Int) ≤ (5 : Int) ∧ (5 : Int) ≤ (9 : Int) ∧
    (0 ≤ (([ResOp.consume 2, ResOp.produce 8]).foldl applyOp
        { name := "R", amount := 5, max_capacity := 9 }).amount ∧
      (([ResOp.consume 2, ResOp.produce 8]).foldl applyOp
        { name := "R", amount := 5, max_capacity := 9 }).amount ≤
        (([ResOp.consume 2, ResOp.produce 8]).foldl applyOp
          { name := "R", amount := 5, max_capacity := 9 }).max_capacity) :=
  ⟨by decide, by decide,
    resource_invariant [ResOp.consume 2, ResOp.produce 8]
      { name := "R", amount := 5, max_capacity := 9 } (by decide) (by decide) (by decide)⟩

/-! ### C2 and C5: event queue ordering, FIFO within a tier, conservation -/

/-- The scan insert produces a permutation of consing the new event. -/
theorem event_queue_scan_perm (e : Event) :
    ∀ t : List Event, List.Perm (event_queue_scan e t) (e :: t) := by
  intro t
  induction t with
  | nil => simp [event_queue_scan]
  | cons x xs ih =>
    simp only [event_queue_scan]
    split
    · exact (ih.cons x).trans (List.Perm.swap e x xs)
    · exact List.Perm.refl _

/-- `event_queue_push` produces a permutation of consing the new event. -/
theorem event_queue_push_perm (q : List Event) (e : Event) :
    List.Perm (event_queue_push q e) (e :: q) := by
  cases q with
  | nil => simp [event_queue_push]
  | cons h t =>
    simp only [event_queue_push]
    split
    · exact List.Perm.refl _
    · exact ((event_queue_scan_perm e t).cons h).trans (List.Perm.swap e h t)

/-- The scan insert preserves the non-increasing-priority invariant. -/
theorem event_queue_scan_sorted (e : Event) :
    ∀ t : List Event, t.Pairwise (fun a b => b.priority ≤ a.priority) →
      (event_queue_scan e t).Pairwise (fun a b => b.priority ≤ a.priority) := by
  intro t
  induction t with
  | nil =>
    intro _
    simp [event_queue_scan]
  | cons x xs ih =>
    intro hp
    rw [List.pairwise_cons] at hp
    obtain ⟨hx, hxs⟩ := hp
    simp only [event_queue_scan]
    by_cases h : e.priority ≤ x.priority
    · rw [if_pos h, List.pairwise_cons]
      refine ⟨?_, ih hxs⟩
      intro y hy
      rcases List.mem_cons.mp ((event_queue_scan_perm e xs).mem_iff.mp hy) with h1 | h1
      · subst h1; exact h
      · exact hx y h1
    · rw [if_neg h, List.pairwise_cons]
      refine ⟨?_, List.pairwise_cons.mpr ⟨hx, hxs⟩⟩
      intro y hy
      rcases List.mem_cons.mp hy with h1 | h1
      · subst h1; omega
      · have := hx y h1; omega

/-- `event_queue_push` preserves the non-increasing-priority invariant. -/
theorem event_queue_push_sorted (q : List Event) (e : Event)
    (hq : q.Pairwise (fun a b => b.priority ≤ a.priority)) :
    (event_queue_push q e).Pairwise (fun a b => b.priority ≤ a.priority) := by
  cases q with
  | nil => simp [event_queue_push]
  | cons h t =>
    rw [List.pairwise_cons] at hq
    obtain ⟨hh, ht⟩ := hq
    simp only [event_queue_push]
    by_cases hlt : h.priority < e.priority
    · rw [if_pos hlt, List.pairwise_cons]
      refine ⟨?_, List.pairwise_cons.mpr ⟨hh, ht⟩⟩
      intro y hy
      rcases List.mem_cons.mp hy with h1 | h1
      · subst h1; omega
      · have := hh y h1; omega
    · rw [if_neg hlt, List.pairwise_cons]
      refine ⟨?_, event_queue_scan_sorted e t ht⟩
      intro y hy
      rcases List.mem_cons.mp ((event_queue_scan_perm e t).mem_iff.mp hy) with h1 | h1
      · subst h1; omega
      · exact hh y h1

/-- On a sorted tail, the scan insert appends the new event after all
existing events of its priority tier. -/
theorem event_queue_scan_filter (e : Event) (p : Int) :
    ∀ t : List Event, t.Pairwise (fun a b => b.priority ≤ a.priority) →
      (event_queue_scan e t).filter (fun x => x.priority == p) =
        t.filter (fun x => x.priority == p) ++ (if e.priority = p then [e] else []) := by
  intro t
  induction t with
  | nil =>
    intro _
    by_cases hep : e.priority = p <;> simp [event_queue_scan, hep]
  | cons x xs ih =>
    intro hp
    rw [List.pairwise_cons] at hp
    obtain ⟨hx, hxs⟩ := hp
    simp only [event_queue_scan]
    by_cases h : e.priority ≤ x.priority
    · rw [if_pos h]
      by_cases hxp : x.priority = p <;>
        simp [List.filter_cons, beq_iff_eq, hxp, ih hxs]
    · rw [if_neg h]
      by_cases hep : e.priority = p
      · have hnil : (x :: xs).filter (fun y => y.priority == p) = [] := by
          rw [List.filter_eq_nil_iff]
          intro a ha
          rcases List.mem_cons.mp ha with h1 | h1
          · subst h1; simp [beq_iff_eq]; omega
          · have := hx a h1; simp [beq_iff_eq]; omega
        simp [List.filter_cons, beq_iff_eq, hep, hnil]
      · simp [List.filter_cons, beq_iff_eq, hep]

/-- On a sorted queue, `event_queue_push` appends the new event after all
existing events of its priority tier and leaves every tier's relative
order unchanged. -/
theorem event_queue_push_filter (q : List Event) (e : Event) (p : Int)
    (hq : q.Pairwise (fun a b => b.priority ≤ a.priority)) :
    (event_queue_push q e).filter (fun x => x.priority == p) =
      q.filter (fun x => x.priority == p) ++ (if e.priority = p then [e] else []) := by
  cases q with
  | nil =>
    by_cases hep : e.priority = p <;> simp [event_queue_push, hep]
  | cons h t =>
    rw [List.pairwise_cons] at hq
    obtain ⟨hh, ht⟩ := hq
    simp only [event_queue_push]
    by_cases hlt : h.priority < e.priority
    · rw [if_pos hlt]
      by_cases hep : e.priority = p
      · have hnil : (h :: t).filter (fun y => y.priority == p) = [] := by
          rw [List.filter_eq_nil_iff]
          intro a ha
          rcases List.mem_cons.mp ha with h1 | h1
          · subst h1; simp [beq_iff_eq]; omega
          · have := hh a h1; simp [beq_iff_eq]; omega
        simp [List.filter_cons, beq_iff_eq, hep, hnil]
      · simp [List.filter_cons, beq_iff_eq, hep]
    · rw [if_neg hlt]
      by_cases hhp : h.priority = p <;>
        simp [List.filter_cons, beq_iff_eq, hhp, event_queue_scan_filter e p t ht]

/-- Folding pushes over a sorted queue keeps it sorted. -/
theorem foldl_push_sorted :
    ∀ (l q : List Event), q.Pairwise (fun a b => b.priority ≤ a.priority) →
      (l.foldl event_queue_push q).Pairwise (fun a b => b.priority ≤ a.priority) := by
  intro l
  induction l with
  | nil => intro q hq; simpa using hq
  | cons e l ih =>
    intro q hq
    simp only [List.foldl_cons]
    exact ih _ (event_queue_push_sorted q e hq)

/-- Folding pushes preserves each priority tier in insertion order. -/
theorem foldl_push_filter (p : Int) :
    ∀ (l q : List Event), q.Pairwise (fun a b => b.priority ≤ a.priority) →
      (l.foldl event_queue_push q).filter (fun x => x.priority == p) =
        q.filter (fun x => x.priority == p) ++ l.filter (fun x => x.priority == p) := by
  intro l
  induction l with
  | nil => intro q _; simp
  | cons e l ih =>
    intro q hq
    simp only [List.foldl_cons]
    rw [ih _ (event_queue_push_sorted q e hq), event_queue_push_filter q e p hq]
    by_cases hep : e.priority = p <;> simp [List.filter_cons, beq_iff_eq, hep]

/-- Folding pushes yields a permutation of appending the pushed events. -/
theorem foldl_push_perm :
    ∀ (l q : List Event), List.Perm (l.foldl event_queue_push q) (q ++ l) := by
  intro l
  induction l with
  | nil => intro q; simp
  | cons e l ih =>
    intro q
    simp only [List.foldl_cons]
    exact (ih _).trans (((event_queue_push_perm q e).append_right l).trans
      List.perm_middle.symm)

/-- Popping as many times as the queue is long returns the whole queue in
head-to-tail order and leaves it empty. -/
theorem popN_length : ∀ q : List Event, popN q.length q = (q, []) := by
  intro q
  induction q with
  | nil => rfl
  | cons h t ih => simp [popN, event_queue_pop, ih]

/-- C2: pushing any sequence of events onto an empty queue yields a queue
whose head-to-tail iteration is in non-increasing priority order, in
which each priority tier keeps its insertion (FIFO) order, and which
`event_queue_pop` consumes exactly head-to-tail. -/
theorem event_queue_order_fifo (l : List Event) :
    (pushAll l).Pairwise (fun a b => b.priority ≤ a.priority) ∧
    (∀ p : Int, (pushAll l).filter (fun x => x.priority == p) =
      l.filter (fun x => x.priority == p)) ∧
    (popN (pushAll l).length (pushAll l)).1 = pushAll l := by
  refine ⟨foldl_push_sorted l [] List.Pairwise.nil, ?_, ?_⟩
  · intro p
    simpa [pushAll] using foldl_push_filter p l [] List.Pairwise.nil
  · rw [popN_length]

/-- C5: pushing N events and popping N times returns exactly the pushed
events as a multiset (no loss, no duplication) and leaves the queue
empty. -/
theorem event_queue_conservation (l : List Event) :
    (((popN l.length (pushAll l)).1 : List Event) : Multiset Event) = (l : Multiset Event) ∧
    (popN l.length (pushAll l)).2 = [] := by
  have hperm : List.Perm (pushAll l) l := by simpa [pushAll] using foldl_push_perm l []
  have hpop : popN l.length (pushAll l) = (pushAll l, []) := by
    rw [← hperm.length_eq, popN_length]
  rw [hpop]
  exact ⟨Multiset.coe_eq_coe.mpr hperm, rfl⟩

/-! ### C10: `system_run` never dereferences a null resource pointer -/

/-- `system_convert` never changes the `consumed` pairing. -/
theorem system_convert_consumed_eq (s : System) (st : Store) :
    (system_convert s st).2.1.consumed = s.consumed := by
  cases hc : s.consumed.resource with
  | none => simp [system_convert, hc]
  | some rid =>
    simp only [system_convert, hc]
    split_ifs <;> first
      | rfl
      | (cases hp : s.produced.resource <;> simp [hp])

/-- `system_convert` never changes the `produced` pairing. -/
theorem system_convert_produced_eq (s : System) (st : Store) :
    (system_convert s st).2.1.produced = s.produced := by
  cases hc : s.consumed.resource with
  | none => simp [system_convert, hc]
  | some rid =>
    simp only [system_convert, hc]
    split_ifs <;> first
      | rfl
      | (cases hp : s.produced.resource <;> simp [hp])

/-- A null consumed pointer makes `system_convert` return `STATUS_OK`
immediately, touching nothing. -/
theorem system_convert_none (s : System) (st : Store) (h : s.consumed.resource = none) :
    system_convert s st = (STATUS_OK, s, st) := by
  simp [system_convert, h]

/-- `system_store_resources` never changes the `produced` pairing. -/
theorem system_store_produced_eq (s : System) (st : Store) :
    (system_store_resources s st).2.1.produced = s.produced := by
  cases hp : s.produced.resource with
  | none => simp [system_store_resources, hp]
  | some rid =>
    simp only [system_store_resources, hp]
    split_ifs <;> rfl

/-- A null produced pointer makes `system_store_resources` return
`STATUS_OK` immediately, touching nothing. -/
theorem system_store_none (s : System) (st : Store) (h : s.produced.resource = none) :
    system_store_resources s st = (STATUS_OK, s, st) := by
  simp [system_store_resources, h]

/-- Step 1 of the worker loop never dereferences a null pointer: the
event-emission branch is only reached after a failed conversion, which
requires a non-null consumed resource. -/
theorem system_run_step1_isSome (s : System) (st : Store) : system_run_step1 s st ≠ none := by
  unfold system_run_step1
  by_cases h1 : s.amount_stored = 0
  · rw [if_pos h1]
    cases hc : s.consumed.resource with
    | none =>
      have hok := system_convert_none s st hc
      simp [hok]
    | some rid =>
      by_cases hok : (system_convert s st).1 = STATUS_OK
      · simp [hok]
      · have hcr : (system_convert s st).2.1.consumed.resource = some rid := by
          rw [system_convert_consumed_eq]; exact hc
        simp [hok, hcr]
  · rw [if_neg h1]; simp

/-- Step 2 of the worker loop never dereferences a null pointer: the
event-emission branch is only reached after a failed store, which
requires a non-null produced resource. -/
theorem system_run_step2_isSome (x : System × Store × List Event) :
    system_run_step2 x ≠ none := by
  unfold system_run_step2
  by_cases h1 : 0 < x.1.amount_stored
  · rw [if_pos h1]
    cases hp : x.1.produced.resource with
    | none =>
      have hok := system_store_none x.1 x.2.1 hp
      simp [hok]
    | some rid =>
      by_cases hok : (system_store_resources x.1 x.2.1).1 = STATUS_OK
      · simp [hok]
      · have hpr : (system_store_resources x.1 x.2.1).2.1.produced.resource = some rid := by
          rw [system_store_produced_eq]; exact hp
        simp [hok, hpr]
  · rw [if_neg h1]; simp

/-- C10: `system_run` never dereferences a null `Resource` pointer: with
a null consumed reference `system_convert` returns `STATUS_OK`, so the
consumed-side event branch is unreachable, and with a null produced
reference `system_store_resources` returns `STATUS_OK`, so the
produced-side event branch is unreachable. -/
theorem system_run_no_null_deref (s : System) (st : Store) : system_run s st ≠ none := by
  unfold system_run
  cases h : system_run_step1 s st with
  | none => exact absurd h (system_run_step1_isSome s st)
  | some x => exact system_run_step2_isSome x

/-! ### C8: conversion success and the stored buffer -/

/-- A pure source: null consumed reference, nominal production of 10. -/
def pureSourceSys : System :=
  { name := "Solar", consumed := ⟨none, 0⟩, produced := ⟨some 0, 10⟩,
    amount_stored := 0, processing_time := 5, status := STANDARD }

/-- Counterexample to C8 as stated: for a pure source (null consumed
reference) `system_convert` returns `STATUS_OK` through the early guard
but leaves `amount_stored` unchanged, so it does not increase by the
nominal produced amount (10). -/
theorem pure_source_convert_no_increment :
    (system_convert pureSourceSys wStore).1 = STATUS_OK ∧
    ¬ ((system_convert pureSourceSys wStore).2.1.amount_stored =
        pureSourceSys.amount_stored + pureSourceSys.produced.amount) := by
  decide

/-- C8 (amended): when a subsystem has both a produced resource and a
non-null consumed resource, a consume attempt returning `STATUS_OK`
increases `amount_stored` by exactly the nominal produced amount; a pure
source (null consumed reference) always succeeds, but returns through
the early guard with `amount_stored` (and everything else) unchanged. -/
theorem system_convert_ok_increments (s : System) (st : Store) :
    (s.consumed.resource ≠ none → s.produced.resource ≠ none →
      (system_convert s st).1 = STATUS_OK →
      (system_convert s st).2.1.amount_stored = s.amount_stored + s.produced.amount) ∧
    (s.consumed.resource = none → system_convert s st = (STATUS_OK, s, st)) := by
  constructor
  · intro hc hp hok
    cases hcr : s.consumed.resource with
    | none => exact absurd hcr hc
    | some rid =>
      cases hpr : s.produced.resource with
      | none => exact absurd hpr hp
      | some rid2 =>
        by_cases hle : s.consumed.amount ≤ (st rid).amount
        · simp [system_convert, hcr, hpr, hle]
        · exfalso
          by_cases hz : (st rid).amount = 0
          · have hle0 : ¬ s.consumed.amount ≤ (0 : Int) := by omega
            simp [system_convert, hcr, hle0, hz, STATUS_EMPTY, STATUS_OK] at hok
          · simp [system_convert, hcr, hle, hz, STATUS_INSUFFICIENT, STATUS_OK] at hok
  · intro hc
    exact system_convert_none s st hc

/-- Concrete converter with non-null consumed and produced resources. -/
def convSys : System :=
  { name := "Gen", consumed := ⟨some 0, 2⟩, produced := ⟨some 1, 10⟩,
    amount_stored := 0, processing_time := 20, status := STANDARD }

/-- Witness for `system_convert_ok_increments` at a concrete input. -/
theorem system_convert_ok_increments_witness :
    convSys.consumed.resource ≠ none ∧ convSys.produced.resource ≠ none ∧
    (system_convert convSys wStore).1 = STATUS_OK ∧
    (system_convert convSys wStore).2.1.amount_stored =
      convSys.amount_stored + convSys.produced.amount :=
  ⟨by decide, by decide, by decide,
    (system_convert_ok_increments convSys wStore).1 (by decide) (by decide) (by decide)⟩

/-! ### C9: DISABLED subsystems are not special-cased by the worker -/

/-- A DISABLED subsystem wired to consume resource 0 and produce into
resource 1. -/
def disSys : System :=
  { name := "Dis", consumed := ⟨some 0, 1⟩, produced := ⟨some 1, 2⟩,
    amount_stored := 0, processing_time := 10, status := DISABLED }

/-- A store with resource 0 at 5 of 10 and resource 1 at 0 of 10. -/
def disStore : Store :=
  fun rid => if rid = 0 then { name := "A", amount := 5, max_capacity := 10 }
    else { name := "B", amount := 0, max_capacity := 10 }

/-- Counterexample to C9 as stated: one worker iteration of a DISABLED
subsystem consumes 1 unit of resource 0 (5 becomes 4) and deposits 2
units into resource 1 (0 becomes 2), so it is not a no-op. -/
theorem system_run_disabled_not_noop :
    disSys.status = DISABLED ∧
    (system_run disSys disStore).map
      (fun x => ((x.2.1 0).amount, (x.2.1 1).amount, x.1.amount_stored)) =
      some (4, 2, 0) ∧
    ¬ ((4 : Int) = 5 ∧ (2 : Int) = 0) := by
  decide

/-- `system_convert` ignores the `status` field: changing it beforehand
changes nothing but the `status` field carried through. -/
theorem system_convert_status (s : System) (st : Store) (v : Int) :
    system_convert { s with status := v } st =
      ((system_convert s st).1, { (system_convert s st).2.1 with status := v },
        (system_convert s st).2.2) := by
  rcases s with ⟨n, cons, prod, amt, pt, stat⟩
  cases hc : cons.resource with
  | none => simp [system_convert, hc]
  | some rid =>
    simp only [system_convert, hc]
    split_ifs with hle hz
    · cases hp : prod.resource <;> simp [hp]
    · rfl
    · rfl

/-- `system_store_resources` ignores the `status` field likewise. -/
theorem system_store_status (s : System) (st : Store) (v : Int) :
    system_store_resources { s with status := v } st =
      ((system_store_resources s st).1,
        { (system_store_resources s st).2.1 with status := v },
        (system_store_resources s st).2.2) := by
  rcases s with ⟨n, cons, prod, amt, pt, stat⟩
  cases hp : prod.resource with
  | none => simp [system_store_resources, hp]
  | some rid =>
    simp only [system_store_resources, hp]
    split_ifs with hz hle h2 <;> rfl

/-- Step 1 of the worker loop ignores the `status` field. -/
theorem system_run_step1_status (s : System) (st : Store) (v : Int) :
    system_run_step1 { s with status := v } st =
      (system_run_step1 s st).map (fun x => ({ x.1 with status := v }, x.2)) := by
  unfold system_run_step1
  simp only [system_convert_status]
  by_cases h1 : s.amount_stored = 0
  · by_cases hok : (system_convert s st).1 = STATUS_OK
    · simp [h1, hok]
    · cases hcr : (system_convert s st).2.1.consumed.resource with
      | none => simp [h1, hok, hcr]
      | some rid => simp [h1, hok, hcr]
  · simp [h1]

/-- Step 2 of the worker loop ignores the `status` field. -/
theorem system_run_step2_status (x : System × Store × List Event) (v : Int) :
    system_run_step2 ({ x.1 with status := v }, x.2) =
      (system_run_step2 x).map (fun y => ({ y.1 with status := v }, y.2)) := by
  unfold system_run_step2
  simp only [system_store_status]
  by_cases h1 : 0 < x.1.amount_stored
  · by_cases hok : (system_store_resources x.1 x.2.1).1 = STATUS_OK
    · simp [h1, hok]
    · cases hpr : (system_store_resources x.1 x.2.1).2.1.produced.resource with
      | none => simp [h1, hok, hpr]
      | some rid => simp [h1, hok, hpr]
  · simp [h1]

/-- `system_run` ignores the `status` field: it only carries it along. -/
theorem system_run_status (s : System) (st : Store) (v : Int) :
    system_run { s with status := v } st =
      (system_run s st).map (fun x => ({ x.1 with status := v }, x.2)) := by
  unfold system_run
  rw [system_run_step1_status]
  cases h : system_run_step1 s st with
  | none => simp
  | some x =>
    simp only [Option.map_some]
    exact system_run_step2_status x v

/-- C9 (amended): the worker does not special-case DISABLED.  A DISABLED
subsystem's adjusted processing time equals the nominal time (the
`default` branch of `system_simulate_process_time`, the same as
STANDARD), its thread keeps looping (`DISABLED ≠ TERMINATE` in
`system_thread`), and one `system_run` iteration performs exactly the
consume/produce/event effects it would perform with status STANDARD. -/
theorem system_disabled_behaves_standard (s : System) (st : Store)
    (h : s.status = DISABLED) :
    system_simulate_process_time s = s.processing_time ∧
    s.status ≠ TERMINATE ∧
    system_run s st =
      (system_run { s with status := STANDARD } st).map
        (fun x => ({ x.1 with status := DISABLED }, x.2)) := by
  refine ⟨?_, ?_, ?_⟩
  · simp [system_simulate_process_time, h, DISABLED, SLOW, FAST]
  · rw [h]; decide
  · have h2 : ({ ({ s with status := STANDARD }) with status := DISABLED } : System) = s := by
      rcases s with ⟨n, cons, prod, amt, pt, stat⟩
      have h3 : stat = DISABLED := h
      subst h3
      rfl
    rw [← system_run_status { s with status := STANDARD } st DISABLED, h2]

/-- Witness for `system_disabled_behaves_standard` at a concrete input. -/
theorem system_disabled_behaves_standard_witness :
    disSys.status = DISABLED ∧
    (system_simulate_process_time disSys = disSys.processing_time ∧
      disSys.status ≠ TERMINATE ∧
      system_run disSys disStore =
        (system_run { disSys with status := STANDARD } disStore).map
          (fun x => ({ x.1 with status := DISABLED }, x.2))) :=
  ⟨rfl, system_disabled_behaves_standard disSys disStore rfl⟩

/-! ### C6 and C7: the controller's reactions -/

/-- Processing an EMPTY event on the resource named Oxygen sets every
system's status to TERMINATE, clears `simulation_running`, and leaves the
local `status` variable at TERMINATE. -/
theorem manager_step_oxygen (st : Store) (acc : Int × Manager) (e : Event)
    (h1 : e.status = STATUS_EMPTY) (h2 : ename st e = some "Oxygen") :
    manager_step st acc e =
      (TERMINATE,
        ⟨0, acc.2.systems.map (fun s => { s with status := TERMINATE })⟩) := by
  simp [manager_step, h1, h2, TERMINATE]

/-- An event that raises none of the four flags leaves the drain-loop
state unchanged. -/
theorem manager_step_noflags (st : Store) (acc : Int × Manager) (e : Event)
    (h : e.status ≠ STATUS_EMPTY ∧ e.status ≠ STATUS_LOW ∧ e.status ≠ STATUS_INSUFFICIENT ∧
      e.status ≠ STATUS_CAPACITY) :
    manager_step st acc e = acc := by
  obtain ⟨hE, hL, hI, hC⟩ := h
  simp [manager_step, beq_iff_eq, hE, hL, hI, hC]

/-- Draining a run of flag-free events is the identity. -/
theorem manager_foldl_noflags (st : Store) :
    ∀ (l : List Event) (acc : Int × Manager),
      (∀ e ∈ l, e.status ≠ STATUS_EMPTY ∧ e.status ≠ STATUS_LOW ∧
        e.status ≠ STATUS_INSUFFICIENT ∧ e.status ≠ STATUS_CAPACITY) →
      l.foldl (manager_step st) acc = acc := by
  intro l
  induction l with
  | nil => intro acc _; rfl
  | cons e l ih =>
    intro acc h
    simp only [List.foldl_cons]
    rw [manager_step_noflags st acc e (h e (List.mem_cons_self e l))]
    exact ih acc (fun x hx => h x (List.mem_cons_of_mem _ hx))

/-- One drain iteration never restarts the simulation: the
`simulation_running` flag is either set to 0 or left alone. -/
theorem manager_step_running_zero (st : Store) (acc : Int × Manager) (e : Event)
    (h : acc.2.simulation_running = 0) :
    (manager_step st acc e).2.simulation_running = 0 := by
  simp only [manager_step]
  split_ifs <;> simp [h]

/-- Draining any run of events keeps a cleared `simulation_running` flag
cleared. -/
theorem manager_foldl_running_zero (st : Store) :
    ∀ (l : List Event) (acc : Int × Manager), acc.2.simulation_running = 0 →
      (l.foldl (manager_step st) acc).2.simulation_running = 0 := by
  intro l
  induction l with
  | nil => intro acc h; exact h
  | cons e l ih =>
    intro acc h
    simp only [List.foldl_cons]
    exact ih _ (manager_step_running_zero st acc e h)

/-- C6 (amended): if the drained queue contains an EMPTY event on the
resource named Oxygen, `manager_run` always returns with
`simulation_running = 0`; and if additionally no event after the Oxygen
event carries a status of EMPTY, LOW, INSUFFICIENT or CAPACITY, every
subsystem has status TERMINATE on return.  (Without the restriction on
later events, a later shortfall or capacity event in the same drain
cycle re-sets matching producers' statuses after the termination: see
the counterexample.) -/
theorem manager_drain_oxygen_terminates (st : Store) (m : Manager) (l1 l2 : List Event)
    (e : Event) (h1 : e.status = STATUS_EMPTY) (h2 : ename st e = some "Oxygen") :
    (manager_run_events st m (l1 ++ e :: l2)).2.simulation_running = 0 ∧
    ((∀ e2 ∈ l2, e2.status ≠ STATUS_EMPTY ∧ e2.status ≠ STATUS_LOW ∧
        e2.status ≠ STATUS_INSUFFICIENT ∧ e2.status ≠ STATUS_CAPACITY) →
      ∀ s ∈ (manager_run_events st m (l1 ++ e :: l2)).2.systems, s.status = TERMINATE) := by
  unfold manager_run_events
  rw [List.foldl_append, List.foldl_cons, manager_step_oxygen st _ e h1 h2]
  constructor
  · exact manager_foldl_running_zero st l2 _ rfl
  · intro hrest
    rw [manager_foldl_noflags st l2 _ hrest]
    intro s hs
    rw [List.mem_map] at hs
    obtain ⟨a, _, rfl⟩ := hs
    rfl

/-- Store for the controller scenarios: resource 0 is Oxygen (empty),
every other identity is Energy at 2 of 50. -/
def oxStore : Store :=
  fun rid => if rid = 0 then { name := "Oxygen", amount := 0, max_capacity := 50 }
    else { name := "Energy", amount := 2, max_capacity := 50 }

/-- A generator system producing into resource 1 (Energy). -/
def genSys : System :=
  { name := "Generator", consumed := ⟨none, 0⟩, produced := ⟨some 1, 10⟩,
    amount_stored := 0, processing_time := 20, status := STANDARD }

/-- Manager state holding the generator, simulation running. -/
def mgr0 : Manager := { simulation_running := 1, systems := [genSys] }

/-- An EMPTY event on the Oxygen resource. -/
def evOx : Event :=
  { systemName := "Crew", resource := some 0, status := STATUS_EMPTY,
    priority := PRIORITY_HIGH, amount := 0 }

/-- An INSUFFICIENT event on the Energy resource. -/
def evEn : Event :=
  { systemName := "Life Support", resource := some 1, status := STATUS_INSUFFICIENT,
    priority := PRIORITY_HIGH, amount := 2 }

/-- Counterexample to C6 as stated: the queue contains an EMPTY-Oxygen
event, yet after the drain the generator's status is FAST, not
TERMINATE, because the later INSUFFICIENT-Energy event re-set it.  The
`simulation_running` flag does stay 0. -/
theorem manager_drain_oxygen_not_final :
    evOx.status = STATUS_EMPTY ∧ ename oxStore evOx = some "Oxygen" ∧
    (manager_run_events oxStore mgr0 [evOx, evEn]).2.simulation_running = 0 ∧
    (manager_run_events oxStore mgr0 [evOx, evEn]).2.systems.map (fun s => s.status) = [FAST] ∧
    ¬ FAST = TERMINATE := by
  decide

/-- C7: processing an event with status LOW, EMPTY or INSUFFICIENT on a
resource not named Oxygen sets status FAST on exactly the subsystems
whose produced resource is the event's resource and changes no other
subsystem. -/
theorem manager_step_shortfall (st : Store) (acc : Int × Manager) (e : Event)
    (rid : ResourceId) (hres : e.resource = some rid) (hname : (st rid).name ≠ "Oxygen")
    (hstat : e.status = STATUS_LOW ∨ e.status = STATUS_EMPTY ∨
      e.status = STATUS_INSUFFICIENT) :
    (manager_step st acc e).2.systems =
      acc.2.systems.map (fun s =>
        if s.produced.resource = some rid then { s with status := FAST } else s) := by
  have hOxe : ename st e = some ((st rid).name) := by simp [ename, hres]
  have hOxb : (ename st e == some "Oxygen") = false := by
    rw [hOxe, beq_eq_false_iff_ne]
    simp [hname]
  rcases hstat with h | h | h <;>
    simp [manager_step, h, hres, hOxb, STATUS_LOW, STATUS_EMPTY, STATUS_INSUFFICIENT,
      STATUS_CAPACITY, FAST, TERMINATE, beq_iff_eq]

/-- Witness for `manager_step_shortfall` at a concrete input. -/
theorem manager_step_shortfall_witness :
    evEn.resource = some 1 ∧ ¬ (oxStore 1).name = "Oxygen" ∧
    (manager_step oxStore (STANDARD, mgr0) evEn).2.systems =
      mgr0.systems.map (fun s =>
        if s.produced.resource = some 1 then { s with status := FAST } else s) :=
  ⟨rfl, by decide,
    manager_step_shortfall oxStore (STANDARD, mgr0) evEn 1 rfl (by decide)
      (Or.inr (Or.inr rfl))⟩

/-- Witness for `manager_drain_oxygen_terminates` at a concrete input:
the unconditional clause holds even on the counterexample-shaped queue
that has an INSUFFICIENT event after the Oxygen event. -/
theorem manager_drain_oxygen_terminates_witness :
    evOx.status = STATUS_EMPTY ∧ ename oxStore evOx = some "Oxygen" ∧
    (manager_run_events oxStore mgr0 ([] ++ evOx :: [evEn])).2.simulation_running = 0 :=
  ⟨rfl, by decide,
    (manager_drain_oxygen_terminates oxStore mgr0 [] [evEn] evOx rfl (by decide)).1⟩
